import Mathlib

/-!
Verification development for the SQLite-Visualizer-Library core:
the SQL autocomplete engine (`src/core/sqlAutocomplete.ts`) and the
query history manager (`src/core/database.ts`, class `QueryHistoryManager`).

JavaScript strings are modelled as lists of Unicode code points
(`List Nat`).  `String.prototype.toUpperCase` / `toLowerCase` are modelled
on the ASCII range (the only range the engine's fixed keyword vocabulary
and the regex character classes `\w`, `\s` touch).  All state (the
autocomplete schema snapshot, the history list, browser local storage,
the clock `Date.now()`) is passed explicitly.
-/

namespace SQLiteVisualizer

/-- A JavaScript string: the list of its code points. -/
abbrev JStr := List Nat

/-- Injection of Lean string literals into the model. -/
def strToL (s : String) : JStr := s.data.map Char.toNat

/-- `String.prototype.toUpperCase`, per code point, ASCII range. -/
def upC (n : Nat) : Nat := if 97 ≤ n ∧ n ≤ 122 then n - 32 else n

/-- `String.prototype.toLowerCase`, per code point, ASCII range. -/
def loC (n : Nat) : Nat := if 65 ≤ n ∧ n ≤ 90 then n + 32 else n

/-- `s.toUpperCase()`. -/
def toUpperL (s : JStr) : JStr := s.map upC

/-- `s.toLowerCase()`. -/
def toLowerL (s : JStr) : JStr := s.map loC

/-- The regex character class `\w` = `[A-Za-z0-9_]`. -/
def isWordCharN (n : Nat) : Bool :=
  (48 ≤ n && n ≤ 57) || (65 ≤ n && n ≤ 90) || (97 ≤ n && n ≤ 122) || n == 95

/-- The regex character class `\s` (JS whitespace: ASCII whitespace plus
NBSP, the Unicode line/paragraph separators and the BOM). -/
def isSpaceN (n : Nat) : Bool :=
  n == 32 || n == 9 || n == 10 || n == 11 || n == 12 || n == 13 ||
  n == 160 || n == 8232 || n == 8233 || n == 65279

/-- The maximal trailing run of `\w` characters of `s`: the capture of
`s.match(/(\w+)$/)`, `[]` when the regex does not match. -/
def trailingWord (s : JStr) : JStr := (s.reverse.takeWhile isWordCharN).reverse

/-- Does `pat` occur in `s` starting at index `i`?  (Substring equality,
as used by `String.prototype.lastIndexOf`.) -/
def substrEqAt (s pat : JStr) (i : Nat) : Bool := (s.drop i).take pat.length == pat

/-- `s.lastIndexOf(pat)`: the largest index at which `pat` occurs in `s`,
`-1` when it does not occur. -/
def lastIndexOf (s pat : JStr) : Int :=
  match ((List.range (s.length + 1)).filter (substrEqAt s pat)).getLast? with
  | some i => (i : Int)
  | none => -1

/-- `ColumnInfo` from `src/types/index.ts` (the autocomplete engine only
reads the `name` field). -/
structure ColumnInfo where
  name : JStr
deriving DecidableEq

/-- `TableInfo` from `src/types/index.ts` (only the fields the
autocomplete engine reads). -/
structure TableInfo where
  name : JStr
  columns : List ColumnInfo
deriving DecidableEq

/-- `DatabaseSchema` from `src/types/index.ts`. -/
structure DatabaseSchema where
  tables : List TableInfo
deriving DecidableEq

/-- The fixed keyword vocabulary `SQLAutocomplete.keywords`, in
declaration order (note the duplicated `'NOT'`). -/
def keywords : List JStr :=
  ["SELECT", "FROM", "WHERE", "JOIN", "INNER", "LEFT", "RIGHT", "FULL",
   "OUTER", "ON", "AS", "AND", "OR", "NOT", "IN", "LIKE", "BETWEEN", "IS",
   "NULL", "ORDER", "BY", "GROUP", "HAVING", "LIMIT", "OFFSET", "INSERT",
   "INTO", "VALUES", "UPDATE", "SET", "DELETE", "CREATE", "TABLE", "ALTER",
   "DROP", "INDEX", "PRIMARY", "KEY", "FOREIGN", "REFERENCES", "UNIQUE",
   "NOT", "DEFAULT", "AUTOINCREMENT", "INTEGER", "TEXT", "REAL", "BLOB",
   "NUMERIC", "BOOLEAN", "DATE", "DATETIME", "COUNT", "SUM", "AVG", "MAX",
   "MIN", "DISTINCT", "EXPLAIN", "QUERY", "PLAN"].map strToL

/-- The record returned by `SQLAutocomplete.getContext`. -/
structure SqlContext where
  afterSelect : Bool
  afterFrom : Bool
  afterJoin : Bool
  afterWhere : Bool
  afterOn : Bool
deriving DecidableEq

/-- `SQLAutocomplete.getContext`. -/
def getContext (query : JStr) : SqlContext :=
  let upperQuery := toUpperL query
  let lastSelect := lastIndexOf upperQuery (strToL "SELECT")
  let lastFrom := lastIndexOf upperQuery (strToL "FROM")
  let lastJoin := lastIndexOf upperQuery (strToL "JOIN")
  let lastWhere := lastIndexOf upperQuery (strToL "WHERE")
  let lastOn := lastIndexOf upperQuery (strToL "ON")
  { afterSelect := decide (lastFrom < lastSelect) && decide (lastJoin < lastSelect)
    afterFrom := decide (lastSelect < lastFrom) && decide (lastJoin < lastFrom)
    afterJoin := decide (lastFrom < lastJoin)
    afterWhere := decide (lastFrom < lastWhere)
    afterOn := decide (lastJoin < lastOn) }

/-- `SQLAutocomplete.shouldSuggestKeywords` (always `true`). -/
def shouldSuggestKeywords (_ : SqlContext) : Bool := true

/-- `SQLAutocomplete.shouldSuggestTables`. -/
def shouldSuggestTables (c : SqlContext) : Bool := c.afterFrom || c.afterJoin

/-- `SQLAutocomplete.shouldSuggestColumns`. -/
def shouldSuggestColumns (c : SqlContext) : Bool :=
  c.afterSelect || c.afterWhere || c.afterOn

/-- One attempt of the regex `KW\s+(\w+)` anchored at the start of `s`:
`KW` literally, then at least one whitespace, then the captured maximal
run of word characters. -/
def kwWordAt (kw s : JStr) : Option JStr :=
  if kw.isPrefixOf s then
    let rest := s.drop kw.length
    let ws := rest.takeWhile isSpaceN
    if ws.isEmpty then none
    else
      let w := (rest.drop ws.length).takeWhile isWordCharN
      if w.isEmpty then none else some w
  else none

/-- `s.match(/KW\s+(\w+)/)`: leftmost match, returning the capture group.
The engine tries every start position from the left, exactly as a regex
engine scans. -/
def findKwWord (kw : JStr) : JStr → Option JStr
  | [] => kwWordAt kw []
  | c :: rest =>
    match kwWordAt kw (c :: rest) with
    | some w => some w
    | none => findKwWord kw rest

/-- The columns of the snapshot table whose name equals `tableName`
case-insensitively (`find` in `getRelevantColumns`). -/
def lookupTableColumns (sch : DatabaseSchema) (tableName : JStr) : List JStr :=
  match sch.tables.find? (fun t => toLowerL t.name == toLowerL tableName) with
  | some t => t.columns.map (fun c => c.name)
  | none => []

/-- The table names referenced by the first `FROM\s+(\w+)` and first
`JOIN\s+(\w+)` matches (in that order) of the uppercased query. -/
def referencedTables (upperQuery : JStr) : List JStr :=
  (match findKwWord (strToL "FROM") upperQuery with
   | some t => [t]
   | none => []) ++
  (match findKwWord (strToL "JOIN") upperQuery with
   | some t => [t]
   | none => [])

/-- The fallback of `getRelevantColumns`: every column of every table,
qualified as `table.column`. -/
def allQualifiedColumns (sch : DatabaseSchema) : List JStr :=
  sch.tables.flatMap (fun t => t.columns.map (fun c => t.name ++ strToL "." ++ c.name))

/-- `SQLAutocomplete.getRelevantColumns`. -/
def getRelevantColumns (schema : Option DatabaseSchema) (query : JStr) : List JStr :=
  match schema with
  | none => []
  | some sch =>
    let upperQuery := toUpperL query
    let columns := (referencedTables upperQuery).flatMap (lookupTableColumns sch)
    if columns.isEmpty then allQualifiedColumns sch else columns

/-- The `type` tags pushed by `getSuggestions`. -/
inductive SuggType where
  | keyword
  | table
  | column
deriving DecidableEq

/-- A suggestion candidate `{ label, type }`. -/
structure Suggestion where
  label : JStr
  type : SuggType
deriving DecidableEq

/-- The lookup table `order = { keyword: 0, table: 1, column: 2 }` of the
final sort comparator. -/
def orderOf : SuggType → Nat
  | .keyword => 0
  | .table => 1
  | .column => 2

/-- JavaScript `x || d` on numbers: `d` when `x` is `0` (falsy), else `x`. -/
def jsOrDefault (x d : Nat) : Nat := if x == 0 then d else x

/-- The sort key `order[s.type] || 3` of the comparator in
`getSuggestions` (note: `order.keyword` is `0`, which is falsy, so a
keyword candidate gets key `3`). -/
def rankOf (t : SuggType) : Nat := jsOrDefault (orderOf t) 3

/-- The comparator `(order[a.type] || 3) - (order[b.type] || 3)` orders a
pair `a`, `b` ascending on the key `rankOf`:  `a` may come before `b` iff
`rankOf a.type ≤ rankOf b.type`. -/
def suggLe (a b : Suggestion) : Bool := decide (rankOf a.type ≤ rankOf b.type)

/-- `suggestions.sort((a, b) => (order[a.type] || 3) - (order[b.type] || 3))`.
`Array.prototype.sort` is a stable sort; the comparator compares the numeric
key `rankOf`, whose only values are `1`, `2` and `3`, so the stable ascending
sort is the concatenation of the key classes in key order, each in input
order.  (`sortSuggestions_eq_mergeSort` below proves this equal to the
canonical stable sort `List.mergeSort suggLe`.) -/
def sortSuggestions (l : List Suggestion) : List Suggestion :=
  l.filter (fun s => rankOf s.type == 1) ++
  l.filter (fun s => rankOf s.type == 2) ++
  l.filter (fun s => rankOf s.type == 3)

/-- `this.schema?.tables.map((t) => t.name) || []`. -/
def schemaTableNames (schema : Option DatabaseSchema) : List JStr :=
  match schema with
  | some s => s.tables.map (fun t => t.name)
  | none => []

/-- `SQLAutocomplete.getSuggestions`.  The schema snapshot (the class
field set by `updateSchema`) is an explicit argument. -/
def getSuggestions (schema : Option DatabaseSchema) (query : JStr)
    (cursorPosition : Nat) : List Suggestion :=
  let beforeCursor := query.take cursorPosition
  let currentWord := toUpperL (trailingWord beforeCursor)
  let context := getContext beforeCursor
  let kwSuggs : List Suggestion :=
    if shouldSuggestKeywords context then
      (keywords.filter (fun kw => (toUpperL currentWord).isPrefixOf kw)).map
        (fun kw => { label := kw, type := SuggType.keyword })
    else []
  let tblSuggs : List Suggestion :=
    if shouldSuggestTables context then
      ((schemaTableNames schema).filter
        (fun t => (toLowerL currentWord).isPrefixOf (toLowerL t))).map
        (fun t => { label := t, type := SuggType.table })
    else []
  let colSuggs : List Suggestion :=
    if shouldSuggestColumns context then
      ((getRelevantColumns schema beforeCursor).filter
        (fun c => (toLowerL currentWord).isPrefixOf (toLowerL c))).map
        (fun c => { label := c, type := SuggType.column })
    else []
  sortSuggestions (kwSuggs ++ tblSuggs ++ colSuggs)

/-! ## The query history manager (`src/core/database.ts`, `QueryHistoryManager`)

State is explicit: the in-memory list plus the configured cap form
`HistoryState`; the browser `localStorage` slot under the fixed key is
`StorageState`; `Date.now()` is a `now` argument (the two `Date.now()`
calls inside `add` are modelled as the same instant); the generated `id`
is an argument.  The `try`/`catch` around every storage access makes every
operation total: a read failure (`absent` storage, or `corrupt`, i.e.
unparseable/wrong-shape content whose processing throws) yields an empty
load, and a write failure (modelled by `writeOk = false`) leaves storage
unchanged; in both cases the in-memory result is returned normally.
`JSON.stringify`/`JSON.parse` round-trip of well-formed entry lists is
modelled as the identity. -/

/-- `QueryResult` from `src/types/index.ts` (cell values abstracted as
integers; the history manager never inspects them). -/
structure QueryResultM where
  columns : List JStr
  values : List (List Int)
  rowsAffected : Option Nat
deriving DecidableEq

/-- `QueryHistoryItem` from `src/types/index.ts`.  `executionTime` is an
opaque numeric payload. -/
structure QueryHistoryItem where
  id : JStr
  query : JStr
  timestamp : Nat
  executionTime : Int
  result : Option QueryResultM
  error : Option JStr
deriving DecidableEq

/-- The `localStorage` slot under the manager's fixed key. -/
inductive StorageState where
  | absent
  | empty
  | corrupt
  | items (l : List QueryHistoryItem)
deriving DecidableEq

/-- The manager's mutable fields. -/
structure HistoryState where
  history : List QueryHistoryItem
  maxHistorySize : Nat
deriving DecidableEq

/-- `query.trim()` (strip leading and trailing whitespace). -/
def trimL (s : JStr) : JStr :=
  ((s.dropWhile isSpaceN).reverse.dropWhile isSpaceN).reverse

/-- `QueryHistoryManager.loadFromStorage`: stored entries older than 30
days are dropped; a missing, empty or corrupt store loads nothing. -/
def loadFromStorage (stor : StorageState) (now : Nat) : List QueryHistoryItem :=
  match stor with
  | .items l =>
      l.filter (fun item =>
        decide ((now : Int) - 30 * 24 * 60 * 60 * 1000 < (item.timestamp : Int)))
  | _ => []

/-- The `QueryHistoryManager` constructor. -/
def QueryHistoryManager.new (maxSize : Nat) (stor : StorageState) (now : Nat) :
    HistoryState :=
  { history := loadFromStorage stor now, maxHistorySize := maxSize }

/-- `QueryHistoryManager.saveToStorage`: writes the newest 50 entries;
with no `window.localStorage` nothing happens, and a failing `setItem`
(`writeOk = false`) leaves the store as it was. -/
def saveToStorage (st : HistoryState) (stor : StorageState) (writeOk : Bool) :
    StorageState :=
  match stor with
  | .absent => stor
  | _ => if writeOk then .items (st.history.take 50) else stor

/-- `QueryHistoryManager.add`. -/
def QueryHistoryManager.add (st : HistoryState) (stor : StorageState) (writeOk : Bool)
    (id query : JStr) (now : Nat) (executionTime : Int)
    (result : Option QueryResultM) (error : Option JStr) :
    HistoryState × StorageState :=
  let item : QueryHistoryItem :=
    { id := id, query := trimL query, timestamp := now,
      executionTime := executionTime, result := result, error := error }
  let filtered := st.history.filter (fun h =>
    !(h.query == item.query) || decide ((60000 : Int) < (now : Int) - (h.timestamp : Int)))
  let newHistory := item :: filtered
  let limited :=
    if st.maxHistorySize < newHistory.length then newHistory.take st.maxHistorySize
    else newHistory
  let st2 : HistoryState := { st with history := limited }
  (st2, saveToStorage st2 stor writeOk)

/-- `QueryHistoryManager.getAll` (returns a copy of the list). -/
def QueryHistoryManager.getAll (st : HistoryState) : List QueryHistoryItem :=
  st.history

/-- `QueryHistoryManager.clear`. -/
def QueryHistoryManager.clear (st : HistoryState) (stor : StorageState) (writeOk : Bool) :
    HistoryState × StorageState :=
  let st2 : HistoryState := { st with history := [] }
  (st2, saveToStorage st2 stor writeOk)

/-- `QueryHistoryManager.remove`. -/
def QueryHistoryManager.remove (st : HistoryState) (stor : StorageState) (writeOk : Bool)
    (id : JStr) : HistoryState × StorageState :=
  let st2 : HistoryState := { st with history := st.history.filter (fun item => !(item.id == id)) }
  (st2, saveToStorage st2 stor writeOk)

/-- The arguments of one `add` call (for reasoning about call sequences). -/
structure AddCall where
  writeOk : Bool
  id : JStr
  query : JStr
  now : Nat
  executionTime : Int
  result : Option QueryResultM
  error : Option JStr

/-- Run a sequence of `add` calls. -/
def runAdds : HistoryState × StorageState → List AddCall → HistoryState × StorageState
  | p, [] => p
  | (st, stor), c :: cs =>
      runAdds
        (QueryHistoryManager.add st stor c.writeOk c.id c.query c.now
          c.executionTime c.result c.error) cs

/-! ## Helper lemmas -/

theorem rankOf_cases (t : SuggType) : rankOf t = 1 ∨ rankOf t = 2 ∨ rankOf t = 3 := by
  cases t <;> simp [rankOf, orderOf, jsOrDefault]

theorem suggLe_trans (a b c : Suggestion) (h1 : suggLe a b) (h2 : suggLe b c) :
    suggLe a c := by
  simp only [suggLe, decide_eq_true_eq] at h1 h2 ⊢
  omega

theorem suggLe_total (a b : Suggestion) : suggLe a b || suggLe b a := by
  simp only [suggLe]
  by_cases h : rankOf a.type ≤ rankOf b.type
  · simp [h]
  · simp [le_of_not_le h]

theorem pairwise_filter_rank (l : List Suggestion) (r : Nat) :
    (l.filter (fun s => rankOf s.type == r)).Pairwise (fun a b => suggLe a b = true) := by
  apply List.pairwise_of_forall_mem_list
  intro a ha b hb
  have ha2 := (List.mem_filter.mp ha).2
  have hb2 := (List.mem_filter.mp hb).2
  simp only [beq_iff_eq] at ha2 hb2
  simp [suggLe, ha2, hb2]

/-- A list sorted by the rank key splits into its rank classes in order. -/
theorem sorted_eq_rankBuckets :
    ∀ (m : List Suggestion), m.Pairwise (fun a b => suggLe a b = true) →
      m = m.filter (fun s => rankOf s.type == 1) ++ m.filter (fun s => rankOf s.type == 2) ++
          m.filter (fun s => rankOf s.type == 3)
  | [], _ => by simp
  | a :: t, h => by
    have ha := (List.pairwise_cons.mp h).1
    have ht := (List.pairwise_cons.mp h).2
    have IH := sorted_eq_rankBuckets t ht
    rcases rankOf_cases a.type with h1 | h1 | h1
    · simp only [List.filter_cons, h1]
      simpa using congrArg (a :: ·) IH
    · have hf1 : t.filter (fun s => rankOf s.type == 1) = [] := by
        rw [List.filter_eq_nil_iff]
        intro b hb
        have := ha b hb
        simp only [suggLe, h1, decide_eq_true_eq] at this
        simp only [beq_iff_eq]
        omega
      simp only [List.filter_cons, h1]
      simp only [hf1] at IH ⊢
      simpa using congrArg (a :: ·) IH
    · have hf1 : t.filter (fun s => rankOf s.type == 1) = [] := by
        rw [List.filter_eq_nil_iff]
        intro b hb
        have := ha b hb
        simp only [suggLe, h1, decide_eq_true_eq] at this
        simp only [beq_iff_eq]
        omega
      have hf2 : t.filter (fun s => rankOf s.type == 2) = [] := by
        rw [List.filter_eq_nil_iff]
        intro b hb
        have := ha b hb
        simp only [suggLe, h1, decide_eq_true_eq] at this
        simp only [beq_iff_eq]
        omega
      simp only [List.filter_cons, h1]
      simp only [hf1, hf2] at IH ⊢
      simpa using congrArg (a :: ·) IH

/-- Stability of `mergeSort` pins down each rank class. -/
theorem filter_rank_mergeSort (l : List Suggestion) (r : Nat) :
    (l.mergeSort suggLe).filter (fun s => rankOf s.type == r) =
      l.filter (fun s => rankOf s.type == r) := by
  have hsub : List.Sublist (l.filter (fun s => rankOf s.type == r)) (l.mergeSort suggLe) :=
    List.sublist_mergeSort suggLe_trans suggLe_total (pairwise_filter_rank l r)
      (List.filter_sublist l)
  have hsub2 := hsub.filter (fun s => rankOf s.type == r)
  have hself : (l.filter (fun s => rankOf s.type == r)).filter
      (fun s => rankOf s.type == r) = l.filter (fun s => rankOf s.type == r) :=
    List.filter_eq_self.mpr (fun a ha => (List.mem_filter.mp ha).2)
  rw [hself] at hsub2
  have hlen : ((l.mergeSort suggLe).filter (fun s => rankOf s.type == r)).length =
      (l.filter (fun s => rankOf s.type == r)).length :=
    (((List.mergeSort_perm l suggLe)).filter (fun s => rankOf s.type == r)).length_eq
  exact (hsub2.eq_of_length hlen.symm).symm

/-- The embedded bucket sort agrees with the canonical stable sort. -/
theorem sortSuggestions_eq_mergeSort (l : List Suggestion) :
    sortSuggestions l = l.mergeSort suggLe := by
  have hs : (l.mergeSort suggLe).Pairwise (fun a b => suggLe a b = true) :=
    List.sorted_mergeSort suggLe_trans suggLe_total l
  have hb := sorted_eq_rankBuckets (l.mergeSort suggLe) hs
  rw [sortSuggestions.eq_def]
  rw [← filter_rank_mergeSort l 1, ← filter_rank_mergeSort l 2, ← filter_rank_mergeSort l 3]
  exact hb.symm

theorem mem_sortSuggestions {s : Suggestion} {l : List Suggestion} :
    s ∈ sortSuggestions l ↔ s ∈ l := by
  simp only [sortSuggestions, List.mem_append, List.mem_filter]
  constructor
  · rintro ((⟨h, _⟩ | ⟨h, _⟩) | ⟨h, _⟩) <;> exact h
  · intro h
    rcases rankOf_cases s.type with h1 | h1 | h1
    · exact Or.inl (Or.inl ⟨h, by simp [h1]⟩)
    · exact Or.inl (Or.inr ⟨h, by simp [h1]⟩)
    · exact Or.inr ⟨h, by simp [h1]⟩

theorem filter_type_bucket (l : List Suggestion) (ty : SuggType) (r : Nat) :
    (l.filter (fun s => rankOf s.type == r)).filter (fun s => s.type == ty) =
      if rankOf ty = r then l.filter (fun s => s.type == ty) else [] := by
  by_cases h : rankOf ty = r
  · rw [if_pos h, List.filter_filter]
    apply List.filter_congr
    intro a _
    by_cases h2 : a.type = ty
    · simp [h2, h]
    · simp [h2]
  · rw [if_neg h, List.filter_eq_nil_iff]
    intro a ha
    have := (List.mem_filter.mp ha).2
    simp only [beq_iff_eq] at this ⊢
    intro h2
    rw [h2] at this
    exact h this

theorem filter_type_sortSuggestions (l : List Suggestion) (ty : SuggType) :
    (sortSuggestions l).filter (fun s => s.type == ty) =
      l.filter (fun s => s.type == ty) := by
  simp only [sortSuggestions, List.filter_append, filter_type_bucket]
  cases ty <;> simp [rankOf, orderOf, jsOrDefault]

theorem upC_upC (n : Nat) : upC (upC n) = upC n := by
  unfold upC
  split_ifs <;> omega

theorem loC_upC (n : Nat) : loC (upC n) = loC n := by
  unfold loC upC
  split_ifs <;> omega

theorem toUpperL_toUpperL (s : JStr) : toUpperL (toUpperL s) = toUpperL s := by
  simp only [toUpperL, List.map_map]
  exact List.map_congr_left (fun a _ => upC_upC a)

theorem toLowerL_toUpperL (s : JStr) : toLowerL (toUpperL s) = toLowerL s := by
  simp only [toLowerL, toUpperL, List.map_map]
  exact List.map_congr_left (fun a _ => loC_upC a)

/-! ## Concrete data for closed theorems and witnesses -/

/-- A one-table schema `users(id, name)`. -/
def demoSchema : DatabaseSchema :=
  { tables := [ { name := strToL "users",
                  columns := [⟨strToL "id"⟩, ⟨strToL "name"⟩] } ] }

/-- A minimal stored history entry with the given timestamp and query. -/
def demoItem (n : Nat) (q : String) : QueryHistoryItem :=
  { id := [n], query := strToL q, timestamp := n, executionTime := 1,
    result := none, error := none }

/-! ## The claims -/

/-- C4: the claim states that every keyword-kind candidate precedes every
table-kind candidate in the output of `getSuggestions`, as the code's own
comment ("Sort suggestions: keywords first, then tables, then columns")
also says.  Evaluating the code at query `"SELECT * FROM u"`, cursor 15,
schema `users(id, name)` refutes this: the comparator key
`order[s.type] || 3` sends `keyword` — whose `order` entry is the falsy
`0` — to `3`, while `table` keeps `1` and `column` keeps `2`, so the table
candidate `users` sorts before the keyword candidates `UPDATE`, `UNIQUE`. -/
theorem c4_sort_puts_tables_before_keywords :
    getSuggestions (some demoSchema) (strToL "SELECT * FROM u") 15 =
      [⟨strToL "users", SuggType.table⟩, ⟨strToL "UPDATE", SuggType.keyword⟩,
       ⟨strToL "UNIQUE", SuggType.keyword⟩] ∧
    orderOf SuggType.keyword = 0 ∧ rankOf SuggType.keyword = 3 ∧
    rankOf SuggType.table = 1 ∧ rankOf SuggType.column = 2 := by
  constructor
  · decide
  · decide

/-- C9: the keyword vocabulary lists `'NOT'` twice, so suggestion lists are
not duplicate-free: `getSuggestions("NO", 2)` (with no schema set) returns
the candidate `{ label: 'NOT', kind: keyword }` exactly twice. -/
theorem c9_duplicate_not_keyword :
    keywords.count (strToL "NOT") = 2 ∧
    (getSuggestions none (strToL "NO") 2).count ⟨strToL "NOT", SuggType.keyword⟩ = 2 := by
  constructor
  · decide
  · decide

/-- C10: the constructor's load from storage does not apply the configured
maximum: with storage holding three non-expired entries and configured
maximum `2 < 50`, a freshly constructed manager has three entries — more
than the maximum — and the bound is re-established by the next `add`. -/
theorem c10_constructor_skips_cap :
    (2 < 50) ∧
    ((QueryHistoryManager.new 2
        (StorageState.items [demoItem 0 "A", demoItem 1 "B", demoItem 2 "C"]) 0).history.length = 3) ∧
    (2 < (QueryHistoryManager.new 2
        (StorageState.items [demoItem 0 "A", demoItem 1 "B", demoItem 2 "C"]) 0).history.length) ∧
    ((QueryHistoryManager.add
        (QueryHistoryManager.new 2
          (StorageState.items [demoItem 0 "A", demoItem 1 "B", demoItem 2 "C"]) 0)
        StorageState.empty true (strToL "x") (strToL "SELECT 9") 10 1 none
        none).1.history.length ≤ 2) := by
  refine ⟨by decide, by decide, by decide, by decide⟩

/-- C8: no storage failure reaches a caller of the history log.  Loading
from an absent, empty or corrupt store leaves the log empty (the
constructor returns normally), and a failing write (`writeOk = false`)
leaves the in-memory state of `add`, `clear` and `remove` exactly what it
is when the write succeeds.  (All operations are total Lean functions: the
embedded `try`/`catch` semantics never propagates an exception.) -/
theorem c8_storage_failures_contained :
    (∀ (m now : Nat), (QueryHistoryManager.new m StorageState.absent now).history = []) ∧
    (∀ (m now : Nat), (QueryHistoryManager.new m StorageState.empty now).history = []) ∧
    (∀ (m now : Nat), (QueryHistoryManager.new m StorageState.corrupt now).history = []) ∧
    (∀ (st : HistoryState) (stor : StorageState) (id q : JStr) (now : Nat) (t : Int)
        (r : Option QueryResultM) (e : Option JStr),
      (QueryHistoryManager.add st stor false id q now t r e).1 =
        (QueryHistoryManager.add st stor true id q now t r e).1) ∧
    (∀ (st : HistoryState) (stor : StorageState),
      (QueryHistoryManager.clear st stor false).1 =
        (QueryHistoryManager.clear st stor true).1) ∧
    (∀ (st : HistoryState) (stor : StorageState) (id : JStr),
      (QueryHistoryManager.remove st stor false id).1 =
        (QueryHistoryManager.remove st stor true id).1) := by
  refine ⟨fun m now => rfl, fun m now => rfl, fun m now => rfl,
    fun st stor id q now t r e => rfl, fun st stor => rfl, fun st stor id => rfl⟩

/-- What one `add` call does to the in-memory list: the new (trimmed)
entry goes to the head, recent same-text entries are dropped, and the tail
is truncated to the configured maximum.  (`take` is the identity when the
list is already within the bound, so the `if` of the source folds into one
`take`.) -/
theorem add_history_characterization (st : HistoryState) (stor : StorageState)
    (ok : Bool) (id q : JStr) (now : Nat) (t : Int) (r : Option QueryResultM)
    (e : Option JStr) :
    (QueryHistoryManager.add st stor ok id q now t r e).1.history =
      ({ id := id, query := trimL q, timestamp := now, executionTime := t,
         result := r, error := e } ::
        st.history.filter (fun h2 =>
          !(h2.query == trimL q) ||
            decide ((60000 : Int) < (now : Int) - (h2.timestamp : Int)))).take
        st.maxHistorySize := by
  simp only [QueryHistoryManager.add]
  split
  · rfl
  · rename_i h
    exact (List.take_of_length_le (Nat.le_of_not_lt h)).symm

/-- `add` never changes the configured maximum. -/
theorem add_maxHistorySize (st : HistoryState) (stor : StorageState)
    (ok : Bool) (id q : JStr) (now : Nat) (t : Int) (r : Option QueryResultM)
    (e : Option JStr) :
    (QueryHistoryManager.add st stor ok id q now t r e).1.maxHistorySize =
      st.maxHistorySize := rfl

/-- After any single `add`, the list length is at most the configured
maximum (whatever the length was before). -/
theorem add_length_le (st : HistoryState) (stor : StorageState)
    (ok : Bool) (id q : JStr) (now : Nat) (t : Int) (r : Option QueryResultM)
    (e : Option JStr) :
    (QueryHistoryManager.add st stor ok id q now t r e).1.history.length ≤
      st.maxHistorySize := by
  simp only [QueryHistoryManager.add]
  split
  · rename_i h
    simp only [List.length_take]
    omega
  · rename_i h
    exact Nat.le_of_not_lt h

theorem runAdds_length_le :
    ∀ (ops : List AddCall) (st : HistoryState) (stor : StorageState),
      st.history.length ≤ st.maxHistorySize →
      ((runAdds (st, stor) ops).1.history.length ≤ st.maxHistorySize ∧
       (runAdds (st, stor) ops).1.maxHistorySize = st.maxHistorySize)
  | [], st, stor, h => ⟨h, rfl⟩
  | c :: cs, st, stor, h => by
    simp only [runAdds]
    have hstep := add_length_le st stor c.writeOk c.id c.query c.now
      c.executionTime c.result c.error
    have hmax := add_maxHistorySize st stor c.writeOk c.id c.query c.now
      c.executionTime c.result c.error
    have IH := runAdds_length_le cs
      (QueryHistoryManager.add st stor c.writeOk c.id c.query c.now
        c.executionTime c.result c.error).1
      (QueryHistoryManager.add st stor c.writeOk c.id c.query c.now
        c.executionTime c.result c.error).2
      (by rw [hmax]; exact hstep)
    rw [hmax] at IH
    exact IH

/-- C5: `record` trims the query text and de-duplicates by recency: every
existing entry with the same trimmed text and age under 60 seconds is
removed, so recording the same text twice within 60 seconds (starting from
an empty log) leaves exactly the one newer entry, while recording it again
after the 60-second window keeps both entries. -/
theorem c5_record_dedup (maxSize : Nat) (stor1 stor2 stor3 : StorageState)
    (ok1 ok2 ok3 : Bool) (id1 id2 id3 q q3 : JStr)
    (now1 now2 now3 : Nat) (t1 t2 t3 : Int)
    (r1 r2 r3 : Option QueryResultM) (e1 e2 e3 : Option JStr)
    (st : HistoryState) (h : QueryHistoryItem)
    (hmax : 2 ≤ maxSize)
    (hq : h.query = trimL q3)
    (hage : (now3 : Int) - (h.timestamp : Int) < 60000)
    (hne : h ≠ { id := id3, query := trimL q3, timestamp := now3,
                 executionTime := t3, result := r3, error := e3 }) :
    (h ∉ (QueryHistoryManager.add st stor3 ok3 id3 q3 now3 t3 r3 e3).1.history) ∧
    (((now2 : Int) - (now1 : Int) < 60000 →
       (QueryHistoryManager.add
         (QueryHistoryManager.add ⟨[], maxSize⟩ stor1 ok1 id1 q now1 t1 r1 e1).1
         stor2 ok2 id2 q now2 t2 r2 e2).1.history =
       [{ id := id2, query := trimL q, timestamp := now2, executionTime := t2,
          result := r2, error := e2 }]) ∧
     (60000 < (now2 : Int) - (now1 : Int) →
       (QueryHistoryManager.add
         (QueryHistoryManager.add ⟨[], maxSize⟩ stor1 ok1 id1 q now1 t1 r1 e1).1
         stor2 ok2 id2 q now2 t2 r2 e2).1.history.length = 2)) := by
  have hstep1 :
      (QueryHistoryManager.add ⟨[], maxSize⟩ stor1 ok1 id1 q now1 t1 r1 e1).1.history =
        [{ id := id1, query := trimL q, timestamp := now1, executionTime := t1,
           result := r1, error := e1 }] := by
    rw [add_history_characterization]
    simp only [List.filter_nil]
    exact List.take_of_length_le (by simpa using Nat.one_le_of_lt hmax)
  refine ⟨?_, ?_, ?_⟩
  · intro hmem
    rw [add_history_characterization] at hmem
    have hmem2 := List.mem_of_mem_take hmem
    rcases List.mem_cons.mp hmem2 with heq | hfil
    · exact hne heq
    · have hpred := (List.mem_filter.mp hfil).2
      simp only [hq, beq_self_eq_true, Bool.not_true, Bool.false_or,
        decide_eq_true_eq] at hpred
      omega
  · intro hwin
    rw [add_history_characterization, hstep1]
    have hpred : ¬ ((60000 : Int) < (now2 : Int) - (now1 : Int)) := by omega
    simp only [List.filter_cons, List.filter_nil, beq_self_eq_true, Bool.not_true,
      Bool.false_or, decide_eq_false hpred, if_neg]
    exact List.take_of_length_le (by simpa using Nat.one_le_of_lt hmax)
  · intro hwin
    rw [add_history_characterization, hstep1]
    have hpred : (60000 : Int) < (now2 : Int) - (now1 : Int) := hwin
    simp only [List.filter_cons, List.filter_nil, beq_self_eq_true, Bool.not_true,
      Bool.false_or, decide_eq_true hpred, if_pos]
    rw [List.take_of_length_le (by simpa using hmax)]
    rfl

/-- C6: starting from an empty log, no sequence of `add` calls ever takes
the in-memory list over the configured maximum, and each `add` truncates
the tail — the oldest entries, since the list is newest-first — whenever
the insertion would exceed the maximum. -/
theorem c6_bounded_history (st : HistoryState) (stor : StorageState)
    (ops : List AddCall) (st2 : HistoryState) (stor2 : StorageState) (ok : Bool)
    (id q : JStr) (now : Nat) (t : Int) (r : Option QueryResultM) (e : Option JStr)
    (h0 : st.history = []) :
    ((runAdds (st, stor) ops).1.history.length ≤ st.maxHistorySize) ∧
    ((QueryHistoryManager.add st2 stor2 ok id q now t r e).1.history =
      ({ id := id, query := trimL q, timestamp := now, executionTime := t,
         result := r, error := e } ::
        st2.history.filter (fun h2 =>
          !(h2.query == trimL q) ||
            decide ((60000 : Int) < (now : Int) - (h2.timestamp : Int)))).take
        st2.maxHistorySize) := by
  constructor
  · exact (runAdds_length_le ops st stor (by simp [h0])).1
  · exact add_history_characterization st2 stor2 ok id q now t r e

/-- C7: persistence round-trip.  A save writes the newest 50 in-memory
entries (storage present); a fresh manager reading that storage keeps
exactly the written entries within the 30-day horizon — each present as
the very same record, so query text, execution time and outcome
classification are preserved — and no entry at or beyond the horizon
survives the reload. -/
theorem c7_persistence_round_trip (st : HistoryState) (stor : StorageState)
    (m now2 : Nat) (it it2 : QueryHistoryItem)
    (hstor : stor ≠ StorageState.absent)
    (hmem : it ∈ st.history.take 50)
    (hmem2 : it2 ∈ (QueryHistoryManager.new m (saveToStorage st stor true) now2).history) :
    (((now2 : Int) - 30 * 24 * 60 * 60 * 1000 < (it.timestamp : Int)) →
        it ∈ (QueryHistoryManager.new m (saveToStorage st stor true) now2).history) ∧
    (¬ ((now2 : Int) - 30 * 24 * 60 * 60 * 1000 < (it.timestamp : Int)) →
        it ∉ (QueryHistoryManager.new m (saveToStorage st stor true) now2).history) ∧
    (it2 ∈ st.history.take 50 ∧
      (now2 : Int) - 30 * 24 * 60 * 60 * 1000 < (it2.timestamp : Int)) := by
  have hsave : saveToStorage st stor true = StorageState.items (st.history.take 50) := by
    cases stor with
    | absent => exact absurd rfl hstor
    | empty => rfl
    | corrupt => rfl
    | items l => rfl
  rw [hsave] at hmem2 ⊢
  refine ⟨?_, ?_, ?_⟩
  · intro hin
    exact List.mem_filter.mpr ⟨hmem, by simpa using hin⟩
  · intro hout hmemr
    exact hout (by simpa using (List.mem_filter.mp hmemr).2)
  · have := List.mem_filter.mp hmem2
    exact ⟨this.1, by simpa using this.2⟩

/-- C1: `getSuggestions` is a total function (so it terminates on every
query and cursor offset), and for every offset `p ≤ len q` every candidate
it returns prefix-matches the current word at `p` (the maximal trailing
run of word characters before the cursor): a keyword candidate's label
starts with the uppercased current word, and a table or column candidate's
label starts with the current word case-insensitively.  When the current
word is empty both prefix conditions hold trivially. -/
theorem c1_suggestion_labels_prefix_match (schema : Option DatabaseSchema)
    (q : JStr) (p : Nat) (s : Suggestion)
    (hp : p ≤ q.length)
    (hs : s ∈ getSuggestions schema q p) :
    (s.type = SuggType.keyword →
      (toUpperL (trailingWord (q.take p))).isPrefixOf s.label = true) ∧
    ((s.type = SuggType.table ∨ s.type = SuggType.column) →
      (toLowerL (trailingWord (q.take p))).isPrefixOf (toLowerL s.label) = true) := by
  simp only [getSuggestions, shouldSuggestKeywords, if_true] at hs
  rw [mem_sortSuggestions] at hs
  simp only [List.mem_append] at hs
  rcases hs with (h | h) | h
  · rcases List.mem_map.mp h with ⟨kw, hkw, rfl⟩
    have hpre := (List.mem_filter.mp hkw).2
    rw [toUpperL_toUpperL] at hpre
    exact ⟨fun _ => hpre, fun hty => by rcases hty with h1 | h1 <;> simp at h1⟩
  · split at h
    · rcases List.mem_map.mp h with ⟨t, ht, rfl⟩
      have hpre := (List.mem_filter.mp ht).2
      rw [toLowerL_toUpperL] at hpre
      exact ⟨fun hty => by simp at hty, fun _ => hpre⟩
    · simp at h
  · split at h
    · rcases List.mem_map.mp h with ⟨c, hc, rfl⟩
      have hpre := (List.mem_filter.mp hc).2
      rw [toLowerL_toUpperL] at hpre
      exact ⟨fun hty => by simp at hty, fun _ => hpre⟩
    · simp at h

/-- The claim's reading for C2: the index of the last case-insensitive
occurrence of `kw` in `before`, `-1` when absent.  (An occurrence at `i`
is case-insensitive equality of the `kw.length` code points from `i` with
`kw`.)  Compared below with the code's `getContext`, which uppercases the
whole text once and then uses `lastIndexOf`. -/
def specLastOccurrenceCI (before kw : JStr) : Int :=
  match ((List.range (before.length + 1)).filter
      (fun i => toUpperL ((before.drop i).take kw.length) == toUpperL kw)).getLast? with
  | some i => (i : Int)
  | none => -1

theorem specLastOccurrenceCI_eq (before kw : JStr) :
    specLastOccurrenceCI before kw = lastIndexOf (toUpperL before) (toUpperL kw) := by
  unfold specLastOccurrenceCI lastIndexOf substrEqAt
  have hlen : (toUpperL before).length = before.length := by
    simp [toUpperL]
  rw [hlen]
  have hfil : ∀ i ∈ List.range (before.length + 1),
      (toUpperL ((before.drop i).take kw.length) == toUpperL kw) =
      (((toUpperL before).drop i).take (toUpperL kw).length == toUpperL kw) := by
    intro i _
    have h1 : toUpperL ((before.drop i).take kw.length) =
        ((toUpperL before).drop i).take (toUpperL kw).length := by
      simp only [toUpperL, List.length_map, List.map_take, List.map_drop]
    rw [h1]
  rw [List.filter_congr hfil]

/-- C2: each of the five context flags equals exactly the stated comparison
of last case-insensitive keyword occurrences in the text before the cursor
(index `-1` when the keyword is absent); and the flags are independent
boolean probes, not a mutually exclusive state machine — on the query
prefix `"SELECT a FROM t JOIN u ON "` (FROM, then JOIN, then ON) the flags
`afterJoin` and `afterOn` hold simultaneously. -/
theorem c2_context_flags (q : JStr) (p : Nat) :
    ((getContext (q.take p)).afterSelect =
      (decide (specLastOccurrenceCI (q.take p) (strToL "FROM") <
               specLastOccurrenceCI (q.take p) (strToL "SELECT")) &&
       decide (specLastOccurrenceCI (q.take p) (strToL "JOIN") <
               specLastOccurrenceCI (q.take p) (strToL "SELECT")))) ∧
    ((getContext (q.take p)).afterFrom =
      (decide (specLastOccurrenceCI (q.take p) (strToL "SELECT") <
               specLastOccurrenceCI (q.take p) (strToL "FROM")) &&
       decide (specLastOccurrenceCI (q.take p) (strToL "JOIN") <
               specLastOccurrenceCI (q.take p) (strToL "FROM")))) ∧
    ((getContext (q.take p)).afterJoin =
      decide (specLastOccurrenceCI (q.take p) (strToL "FROM") <
              specLastOccurrenceCI (q.take p) (strToL "JOIN"))) ∧
    ((getContext (q.take p)).afterWhere =
      decide (specLastOccurrenceCI (q.take p) (strToL "FROM") <
              specLastOccurrenceCI (q.take p) (strToL "WHERE"))) ∧
    ((getContext (q.take p)).afterOn =
      decide (specLastOccurrenceCI (q.take p) (strToL "JOIN") <
              specLastOccurrenceCI (q.take p) (strToL "ON"))) ∧
    ((getContext (strToL "SELECT a FROM t JOIN u ON ")).afterJoin = true ∧
     (getContext (strToL "SELECT a FROM t JOIN u ON ")).afterOn = true) := by
  have hU1 : toUpperL (strToL "SELECT") = strToL "SELECT" := by decide
  have hU2 : toUpperL (strToL "FROM") = strToL "FROM" := by decide
  have hU3 : toUpperL (strToL "JOIN") = strToL "JOIN" := by decide
  have hU4 : toUpperL (strToL "WHERE") = strToL "WHERE" := by decide
  have hU5 : toUpperL (strToL "ON") = strToL "ON" := by decide
  simp only [getContext, specLastOccurrenceCI_eq, hU1, hU2, hU3, hU4, hU5]
  refine ⟨trivial, trivial, trivial, trivial, trivial, ?_⟩
  decide

theorem filter_type_labelMap (X : List JStr) (ty ty2 : SuggType) :
    ((X.map (fun x => ({ label := x, type := ty } : Suggestion))).filter
      (fun s => s.type == ty2)) =
    (if ty = ty2 then X.map (fun x => ({ label := x, type := ty } : Suggestion))
     else []) := by
  by_cases h : ty = ty2
  · subst h
    rw [if_pos rfl]
    apply List.filter_eq_self.mpr
    intro a ha
    rcases List.mem_map.mp ha with ⟨x, _, rfl⟩
    exact beq_self_eq_true ty
  · rw [if_neg h]
    apply List.filter_eq_nil_iff.mpr
    intro a ha
    rcases List.mem_map.mp ha with ⟨x, _, rfl⟩
    intro hc
    exact h (eq_of_beq hc)

/-- C3: keyword candidates are always generated; table candidates exactly
when `afterFrom ∨ afterJoin`; column candidates exactly when
`afterSelect ∨ afterWhere ∨ afterOn`, drawn by `getRelevantColumns` from
the tables named by the first `FROM <word>` and first `JOIN <word>`
matches before the cursor (looked up case-insensitively in the snapshot);
when no referenced table resolves to any column, the fallback emits every
column of every table qualified `table.column`.  Each kind is filtered by
its prefix rule against the current word. -/
theorem c3_candidate_generation (schema : Option DatabaseSchema)
    (sch : DatabaseSchema) (q : JStr) (p : Nat) :
    ((getSuggestions schema q p).filter (fun s => s.type == SuggType.keyword) =
      (keywords.filter
        (fun kw => (toUpperL (trailingWord (q.take p))).isPrefixOf kw)).map
        (fun kw => { label := kw, type := SuggType.keyword })) ∧
    ((getSuggestions schema q p).filter (fun s => s.type == SuggType.table) =
      if (getContext (q.take p)).afterFrom || (getContext (q.take p)).afterJoin then
        ((schemaTableNames schema).filter
          (fun t => (toLowerL (trailingWord (q.take p))).isPrefixOf (toLowerL t))).map
          (fun t => { label := t, type := SuggType.table })
      else []) ∧
    ((getSuggestions schema q p).filter (fun s => s.type == SuggType.column) =
      if (getContext (q.take p)).afterSelect || (getContext (q.take p)).afterWhere ||
          (getContext (q.take p)).afterOn then
        ((getRelevantColumns schema (q.take p)).filter
          (fun c => (toLowerL (trailingWord (q.take p))).isPrefixOf (toLowerL c))).map
          (fun c => { label := c, type := SuggType.column })
      else []) ∧
    (schema = some sch →
      (referencedTables (toUpperL (q.take p))).flatMap (lookupTableColumns sch) = [] →
      getRelevantColumns schema (q.take p) = allQualifiedColumns sch) := by
  refine ⟨?_, ?_, ?_, ?_⟩
  · simp only [getSuggestions, shouldSuggestKeywords, if_true,
      filter_type_sortSuggestions, List.filter_append, toUpperL_toUpperL]
    cases hT : (getContext (q.take p)).afterFrom || (getContext (q.take p)).afterJoin <;>
      cases hC : (getContext (q.take p)).afterSelect || (getContext (q.take p)).afterWhere ||
        (getContext (q.take p)).afterOn <;>
      simp [shouldSuggestTables, shouldSuggestColumns, hT, hC, filter_type_labelMap]
  · simp only [getSuggestions, shouldSuggestKeywords, if_true,
      filter_type_sortSuggestions, List.filter_append, toLowerL_toUpperL]
    cases hT : (getContext (q.take p)).afterFrom || (getContext (q.take p)).afterJoin <;>
      cases hC : (getContext (q.take p)).afterSelect || (getContext (q.take p)).afterWhere ||
        (getContext (q.take p)).afterOn <;>
      simp [shouldSuggestTables, shouldSuggestColumns, hT, hC, filter_type_labelMap]
  · simp only [getSuggestions, shouldSuggestKeywords, if_true,
      filter_type_sortSuggestions, List.filter_append, toLowerL_toUpperL]
    cases hT : (getContext (q.take p)).afterFrom || (getContext (q.take p)).afterJoin <;>
      cases hC : (getContext (q.take p)).afterSelect || (getContext (q.take p)).afterWhere ||
        (getContext (q.take p)).afterOn <;>
      simp [shouldSuggestTables, shouldSuggestColumns, hT, hC, filter_type_labelMap]
  · intro h1 h2
    subst h1
    simp only [getRelevantColumns]
    rw [h2]
    simp

/-! ## Witnesses -/

theorem c1_suggestion_labels_prefix_match_witness :
    15 ≤ (strToL "SELECT * FROM u").length ∧
    (⟨strToL "users", SuggType.table⟩ : Suggestion) ∈
      getSuggestions (some demoSchema) (strToL "SELECT * FROM u") 15 ∧
    (toLowerL (trailingWord ((strToL "SELECT * FROM u").take 15))).isPrefixOf
      (toLowerL (strToL "users")) = true :=
  ⟨by decide, by decide,
    (c1_suggestion_labels_prefix_match (some demoSchema) (strToL "SELECT * FROM u") 15
      ⟨strToL "users", SuggType.table⟩ (by decide) (by decide)).2 (Or.inl rfl)⟩

theorem c5_record_dedup_witness :
    2 ≤ 100 ∧
    (demoItem 0 "SELECT 1").query = trimL (strToL "SELECT 1") ∧
    ((5000 : Int) - ((demoItem 0 "SELECT 1").timestamp : Int) < 60000) ∧
    (demoItem 0 "SELECT 1") ∉
      (QueryHistoryManager.add ⟨[demoItem 0 "SELECT 1"], 100⟩ StorageState.empty true
        (strToL "c") (strToL "SELECT 1") 5000 1 none none).1.history :=
  ⟨by decide, by decide, by decide,
    (c5_record_dedup 100 StorageState.empty StorageState.empty StorageState.empty
      true true true (strToL "a") (strToL "b") (strToL "c")
      (strToL " SELECT 1 ") (strToL "SELECT 1") 1000 2000 5000 1 1 1
      none none none none none none ⟨[demoItem 0 "SELECT 1"], 100⟩
      (demoItem 0 "SELECT 1") (by decide) (by decide) (by decide) (by decide)).1⟩

/-- One concrete `add` call for the C6 witness. -/
def c6call (n : Nat) : AddCall :=
  { writeOk := true, id := [n], query := strToL "SELECT", now := n,
    executionTime := 1, result := none, error := none }

theorem c6_bounded_history_witness :
    ((⟨[], 2⟩ : HistoryState).history = []) ∧
    ((runAdds (⟨[], 2⟩, StorageState.empty)
        [c6call 1, c6call 2, c6call 3]).1.history.length ≤ 2) :=
  ⟨rfl,
    (c6_bounded_history ⟨[], 2⟩ StorageState.empty [c6call 1, c6call 2, c6call 3]
      ⟨[], 2⟩ StorageState.empty true (strToL "x") (strToL "Q") 0 1 none none rfl).1⟩

theorem c7_persistence_round_trip_witness :
    (StorageState.empty ≠ StorageState.absent) ∧
    (demoItem 0 "A" ∈ (⟨[demoItem 0 "A"], 100⟩ : HistoryState).history.take 50) ∧
    (demoItem 0 "A" ∈
      (QueryHistoryManager.new 100
        (saveToStorage ⟨[demoItem 0 "A"], 100⟩ StorageState.empty true) 0).history) ∧
    (demoItem 0 "A" ∈ (⟨[demoItem 0 "A"], 100⟩ : HistoryState).history.take 50 ∧
      (0 : Int) - 30 * 24 * 60 * 60 * 1000 < ((demoItem 0 "A").timestamp : Int)) :=
  ⟨by decide, by decide, by decide,
    (c7_persistence_round_trip ⟨[demoItem 0 "A"], 100⟩ StorageState.empty 100 0
      (demoItem 0 "A") (demoItem 0 "A") (by decide) (by decide) (by decide)).2.2⟩

end SQLiteVisualizer
